import Mathlib

/-!
Verification of the data synthesis and aggregation pipeline of `src/app.py`
(`generate_data`, `region_sales`, `category_avg`, `heatmap_data`).

The pipeline is embedded shallowly:
* calendar dates (`pd.date_range(start='2023-01-01', periods=100, freq='D')`
  and `strftime('%Y-%m')`) become an explicit Gregorian-calendar `Date` type
  with a day-successor function;
* the NumPy random draws (`randint`, `uniform`, `choice`) become an abstract
  `Draws` record of per-index draw functions, with a `WellFormed` predicate
  recording the half-open ranges the NumPy calls guarantee;
* float64 arithmetic is embedded in `ℝ`; `np.linspace` and `np.sin` become
  `linspace` and `Real.sin`;
* the three pandas `groupby` aggregations become list-level group / reduce
  functions over the row list.
-/

namespace StreamlitFirst

/-! ### Calendar dates -/

/-- A Gregorian calendar date, as produced by `pd.date_range`. -/
structure Date where
  year : Nat
  month : Nat
  day : Nat
deriving DecidableEq

/-- Gregorian leap-year rule. -/
def isLeap (y : Nat) : Bool :=
  (y % 4 == 0 && y % 100 != 0) || (y % 400 == 0)

/-- Number of days in a month of the Gregorian calendar. -/
def daysInMonth (y m : Nat) : Nat :=
  if m = 2 then (if isLeap y then 29 else 28)
  else if m = 4 ∨ m = 6 ∨ m = 9 ∨ m = 11 then 30
  else 31

/-- The next calendar day (the `freq='D'` step of `pd.date_range`). -/
def nextDay (d : Date) : Date :=
  if d.day < daysInMonth d.year d.month then ⟨d.year, d.month, d.day + 1⟩
  else if d.month < 12 then ⟨d.year, d.month + 1, 1⟩
  else ⟨d.year + 1, 1, 1⟩

/-- The fixed epoch `2023-01-01` of `pd.date_range(start='2023-01-01', ...)`. -/
def epochDate : Date := ⟨2023, 1, 1⟩

/-- The `i`-th entry of `pd.date_range(start='2023-01-01', periods=_, freq='D')`:
the epoch advanced by `i` days. -/
def dateAt : Nat → Date
  | 0 => epochDate
  | i + 1 => nextDay (dateAt i)

/-- Strict calendar order on dates (lexicographic on year, month, day). -/
def dateLt (a b : Date) : Prop :=
  a.year < b.year ∨
    (a.year = b.year ∧ (a.month < b.month ∨ (a.month = b.month ∧ a.day < b.day)))

instance (a b : Date) : Decidable (dateLt a b) := by
  unfold dateLt; infer_instance

theorem dateLt_nextDay (d : Date) : dateLt d (nextDay d) := by
  unfold nextDay
  split_ifs <;> simp [dateLt]

theorem dateLt_trans {a b c : Date} (hab : dateLt a b) (hbc : dateLt b c) :
    dateLt a c := by
  unfold dateLt at *
  omega

theorem dateAt_strictMono {i j : Nat} (h : i < j) : dateLt (dateAt i) (dateAt j) := by
  induction j with
  | zero => omega
  | succ j ih =>
    rcases Nat.lt_succ_iff_lt_or_eq.mp h with h' | h'
    · exact dateLt_trans (ih h') (dateLt_nextDay _)
    · subst h'; exact dateLt_nextDay _

/-- Two-digit zero-padded decimal rendering, as `%m` does for months. -/
def pad2 (n : Nat) : String :=
  if n < 10 then "0" ++ toString n else toString n

/-- `strftime('%Y-%m')`: the date truncated to its calendar month, rendered
as `YYYY-MM`. Only the year and month fields are consulted. -/
def fmtYM (d : Date) : String :=
  toString d.year ++ "-" ++ pad2 d.month

/-! ### Random draws -/

/-- The label set of `np.random.choice(['A', 'B', 'C', 'D'], size=100)`. -/
inductive Cat
  | A | B | C | D
deriving DecidableEq, Fintype

/-- The label set of `np.random.choice(['East', 'West', 'North', 'South'], size=100)`. -/
inductive Region
  | East | West | North | South
deriving DecidableEq, Fintype

/-- The per-index outputs of the five NumPy random draws made by
`generate_data`, abstracted as functions of the row index (index `i` gives
the `i`-th entry of the corresponding NumPy array). -/
structure Draws where
  salesBase : Nat → Int
  customersDraw : Nat → Int
  avgPurchaseDraw : Nat → ℝ
  categoryDraw : Nat → Cat
  regionDraw : Nat → Region

/-- The range guarantees of the NumPy calls: `np.random.randint(100, 500)`
draws in `[100, 500)`, `np.random.randint(50, 200)` in `[50, 200)`, and
`np.random.uniform(10, 50)` in `[10, 50)`. -/
def Draws.WellFormed (d : Draws) : Prop :=
  (∀ i, 100 ≤ d.salesBase i ∧ d.salesBase i < 500) ∧
  (∀ i, 50 ≤ d.customersDraw i ∧ d.customersDraw i < 200) ∧
  (∀ i, 10 ≤ d.avgPurchaseDraw i ∧ d.avgPurchaseDraw i < 50)

/-! ### The table built by `generate_data` -/

/-- `np.linspace a b n` at index `i`: `n` evenly spaced points from `a` to
`b` inclusive, so the step is `(b - a) / (n - 1)`. -/
noncomputable def linspace (a b : ℝ) (n i : Nat) : ℝ :=
  a + (b - a) * i / ((n : ℝ) - 1)

/-- A row of the DataFrame of line 18 of `src/app.py`, before the derived
columns of lines 28-29 are added. -/
structure BaseRow where
  date : Date
  sales : ℝ
  customers : Int
  avg_purchase : ℝ
  category : Cat
  region : Region

/-- A full row, including the derived columns `revenue` and `year_month`. -/
structure Row where
  date : Date
  sales : ℝ
  customers : Int
  avg_purchase : ℝ
  category : Cat
  region : Region
  revenue : ℝ
  year_month : String

/-- Row `i` of the DataFrame literal of lines 18-25:
`date` is the `i`-th entry of `pd.date_range('2023-01-01', periods=100)`,
`sales` is `np.random.randint(100, 500, size=100) + np.sin(np.linspace(0, 10, 100)) * 50`
at index `i`, and the remaining columns are the other four draws. -/
noncomputable def mkBaseRow (d : Draws) (i : Nat) : BaseRow :=
  { date := dateAt i
    sales := (d.salesBase i : ℝ) + Real.sin (linspace 0 10 100 i) * 50
    customers := d.customersDraw i
    avg_purchase := d.avgPurchaseDraw i
    category := d.categoryDraw i
    region := d.regionDraw i }

/-- Lines 28-29: `df['revenue'] = df['sales'] * df['avg_purchase']` and
`df['year_month'] = df['date'].dt.strftime('%Y-%m')`, applied per row. -/
noncomputable def addDerived (b : BaseRow) : Row :=
  { date := b.date
    sales := b.sales
    customers := b.customers
    avg_purchase := b.avg_purchase
    category := b.category
    region := b.region
    revenue := b.sales * b.avg_purchase
    year_month := fmtYM b.date }

/-- `generate_data`: the 100-row table, base columns then derived columns. -/
noncomputable def generate_data (d : Draws) : List Row :=
  ((List.range 100).map (mkBaseRow d)).map addDerived

/-- Row `i` of `generate_data`. -/
noncomputable def dataRow (d : Draws) (i : Nat) : Row :=
  addDerived (mkBaseRow d i)

/-! ### The three `groupby` aggregations -/

/-- The rows of a table whose `region` equals `rg`. -/
noncomputable def rowsWithRegion (rows : List Row) (rg : Region) : List Row :=
  rows.filter (fun r => decide (r.region = rg))

/-- Sum of the `sales` column over the rows with region `rg`. -/
noncomputable def sumSalesForRegion (rows : List Row) (rg : Region) : ℝ :=
  ((rowsWithRegion rows rg).map (fun r => r.sales)).sum

/-- Line 102: `data.groupby('region')['sales'].sum().reset_index()` — one
output row per region present in the table, carrying the region and the sum
of its `sales`. -/
noncomputable def region_sales (rows : List Row) : List (Region × ℝ) :=
  ((rows.map (fun r => r.region)).dedup).map (fun rg => (rg, sumSalesForRegion rows rg))

/-- The rows of a table whose `category` equals `c`. -/
noncomputable def rowsWithCat (rows : List Row) (c : Cat) : List Row :=
  rows.filter (fun r => decide (r.category = c))

/-- Arithmetic mean of the `sales` column over the rows with category `c`. -/
noncomputable def meanSalesForCat (rows : List Row) (c : Cat) : ℝ :=
  ((rowsWithCat rows c).map (fun r => r.sales)).sum / ((rowsWithCat rows c).length : ℝ)

/-- Arithmetic mean of the `customers` column over the rows with category `c`. -/
noncomputable def meanCustomersForCat (rows : List Row) (c : Cat) : ℝ :=
  ((rowsWithCat rows c).map (fun r => (r.customers : ℝ))).sum / ((rowsWithCat rows c).length : ℝ)

/-- Arithmetic mean of the `avg_purchase` column over the rows with category `c`. -/
noncomputable def meanPurchaseForCat (rows : List Row) (c : Cat) : ℝ :=
  ((rowsWithCat rows c).map (fun r => r.avg_purchase)).sum / ((rowsWithCat rows c).length : ℝ)

/-- Line 129:
`data.groupby('category')[['sales', 'customers', 'avg_purchase']].mean().reset_index()`
— one output row per category present in the table, carrying the category and
the per-group means of the three numeric columns. -/
noncomputable def category_avg (rows : List Row) :
    List (Cat × ℝ × ℝ × ℝ) :=
  ((rows.map (fun r => r.category)).dedup).map
    (fun c => (c, meanSalesForCat rows c, meanCustomersForCat rows c, meanPurchaseForCat rows c))

/-- The rows of a table whose `(year_month, category)` pair equals `p`. -/
noncomputable def rowsWithPair (rows : List Row) (p : String × Cat) : List Row :=
  rows.filter (fun r => decide (r.year_month = p.1 ∧ r.category = p.2))

/-- Line 165: `data.groupby(['year_month', 'category'])['sales'].sum().reset_index()`
— one output row per `(year_month, category)` pair present in the table,
carrying the pair and the sum of its `sales`. -/
noncomputable def heatmap_data (rows : List Row) : List ((String × Cat) × ℝ) :=
  ((rows.map (fun r => (r.year_month, r.category))).dedup).map
    (fun p => (p, ((rowsWithPair rows p).map (fun r => r.sales)).sum))

/-! ### A concrete well-formed draw assignment, for instantiating theorems -/

/-- Concrete draws with every value at a fixed in-range constant. -/
noncomputable def sampleDraws : Draws where
  salesBase := fun _ => 300
  customersDraw := fun _ => 100
  avgPurchaseDraw := fun _ => 20
  categoryDraw := fun _ => Cat.A
  regionDraw := fun _ => Region.East

theorem sampleDraws_wellFormed : sampleDraws.WellFormed := by
  refine ⟨fun i => ?_, fun i => ?_, fun i => ?_⟩ <;> constructor <;> norm_num [sampleDraws]

theorem generate_data_length (d : Draws) : (generate_data d).length = 100 := by
  simp [generate_data]

/-! ### Session cache and parameterized generator (modelled from the spec) -/

/-- Modelled from the spec: the memo cache `st.cache_data` puts around
`generate_data` (line 13 of `src/app.py`); the decorator's own code is a
third-party library, not in this repository. Per spec 4.4 the cache has a
single process-lifetime entry, keyed by the constant `(seed, N)`. -/
structure Session where
  cache : Option (List Row)

/-- A fresh session: nothing cached yet. -/
def emptySession : Session := ⟨none⟩

/-- Modelled from the spec: calling the cached `generate_data` in a session.
On a hit the cached table is returned unchanged; on a miss the table is
computed once and stored. -/
noncomputable def getData (d : Draws) (s : Session) : List Row × Session :=
  match s.cache with
  | some t => (t, s)
  | none => (generate_data d, ⟨some (generate_data d)⟩)

/-- The error taxonomy of spec section 7. -/
inductive PipelineError
  | InvalidArgument
  | IncompleteRow
deriving DecidableEq

/-- Modelled from the spec: the Generator contract of spec 4.1 takes a
caller-supplied row count `N` and fails on `N ≤ 0` with `InvalidArgument`;
the source hard-codes `N = 100` (`periods=100`, `size=100`) and has no such
parameter, so the parameterized entry point is not in `src/`. -/
noncomputable def generate_dataN (d : Draws) (n : Int) : Except PipelineError (List Row) :=
  if n ≤ 0 then Except.error PipelineError.InvalidArgument
  else Except.ok (((List.range n.toNat).map (mkBaseRow d)).map addDerived)

/-! ### Aggregation helper lemmas -/

theorem sumSalesForRegion_cons (r : Row) (rows : List Row) (rg : Region) :
    sumSalesForRegion (r :: rows) rg
      = (if r.region = rg then r.sales else 0) + sumSalesForRegion rows rg := by
  unfold sumSalesForRegion rowsWithRegion
  by_cases h : r.region = rg
  · simp [List.filter_cons, h]
  · simp [List.filter_cons, h]

theorem sum_regions_eq_salesTotal (rows : List Row) :
    ∑ rg : Region, sumSalesForRegion rows rg = (rows.map (fun r => r.sales)).sum := by
  induction rows with
  | nil => simp [sumSalesForRegion, rowsWithRegion]
  | cons r rows ih =>
    simp only [sumSalesForRegion_cons, Finset.sum_add_distrib, ih, List.map_cons,
      List.sum_cons]
    congr 1
    simp

theorem sumSalesForRegion_eq_zero {rows : List Row} {rg : Region}
    (h : rg ∉ rows.map (fun r => r.region)) : sumSalesForRegion rows rg = 0 := by
  unfold sumSalesForRegion rowsWithRegion
  have hnil : rows.filter (fun r => decide (r.region = rg)) = [] := by
    rw [List.filter_eq_nil_iff]
    intro a ha
    simp only [decide_eq_true_iff]
    intro hc
    exact h (List.mem_map.2 ⟨a, ha, hc⟩)
  rw [hnil]
  simp

theorem dedup_toFinset {α : Type} [DecidableEq α] (l : List α) :
    l.dedup.toFinset = l.toFinset := by
  apply List.toFinset.ext
  intro x
  simp [List.mem_dedup]

theorem dedup_length_eq_card {α : Type} [DecidableEq α] (l : List α) :
    l.dedup.length = l.toFinset.card := by
  rw [← List.toFinset_card_of_nodup (List.nodup_dedup l), dedup_toFinset]

/-! ### Claim theorems -/

/-- Claim C1: every row of the generated table satisfies
`revenue = sales * avg_purchase` (exactly, in the real-number embedding of
float64), and in the purely functional pipeline no later step rewrites
`revenue` — the table handed to the renderers is the one built here. -/
theorem C1_revenue_def (d : Draws) :
    ∀ r ∈ generate_data d, r.revenue = r.sales * r.avg_purchase := by
  intro r hr
  unfold generate_data at hr
  rcases List.mem_map.1 hr with ⟨b, _, rfl⟩
  rfl

/-- Witness for C1 at the concrete draws and row 0. -/
theorem C1_revenue_def_witness :
    (dataRow sampleDraws 0).revenue
      = (dataRow sampleDraws 0).sales * (dataRow sampleDraws 0).avg_purchase := by
  refine C1_revenue_def sampleDraws _ ?_
  unfold generate_data dataRow
  exact List.mem_map_of_mem _ (List.mem_map_of_mem _ (List.mem_range.mpr (by norm_num)))

set_option maxRecDepth 8000 in
/-- Claim C2: the `date` column of the generated table is exactly the 100
entries `dateAt 0, …, dateAt 99`; `dateAt 0` is the epoch 2023-01-01; each
entry is the calendar successor of the previous one (consecutive days, no
gaps); the sequence is strictly increasing in calendar order (hence no
duplicates); and the 100th day lands on 2023-04-10, confirming the calendar
arithmetic across the January/February/March month boundaries. -/
theorem C2_date_column (d : Draws) :
    (generate_data d).map (fun r => r.date) = (List.range 100).map dateAt ∧
    dateAt 0 = ⟨2023, 1, 1⟩ ∧
    (∀ i, dateAt (i + 1) = nextDay (dateAt i)) ∧
    (∀ i j, i < j → dateLt (dateAt i) (dateAt j)) ∧
    dateAt 99 = ⟨2023, 4, 10⟩ := by
  refine ⟨?_, rfl, fun i => rfl, fun i j h => dateAt_strictMono h, by decide⟩
  simp only [generate_data, List.map_map]
  rfl

/-- Witness for C2 at the concrete draws, rows 0 and 99. -/
theorem C2_date_column_witness :
    (generate_data sampleDraws).map (fun r => r.date) = (List.range 100).map dateAt ∧
    dateLt (dateAt 0) (dateAt 99) :=
  ⟨(C2_date_column sampleDraws).1,
    (C2_date_column sampleDraws).2.2.2.1 0 99 (by norm_num)⟩

/-- The sales perturbation as the spec's sentence words it:
`sin(2π · i / N · k)` scaled by 50, with `N` the row count and `k` the
fixed frequency constant. To be compared with the source's
`np.sin(np.linspace(0, 10, 100)) * 50`. -/
noncomputable def specSalesPerturbation (N k i : Nat) : ℝ :=
  Real.sin (2 * Real.pi * i / N * k) * 50

/-- Claim C3 counterexample: at row index 1 the source's sales value
(base draw plus `sin(linspace 0 10 100 1) * 50 = sin(10/99) * 50`) differs
from the claim's formula `base + sin(2π · 1 / 100 · 10) * 50 = base +
sin(π/5) * 50`: the two sine arguments lie in `[0, π/2]` where `sin` is
strictly monotone, and `10/99 < π/5`. -/
theorem C3_sinusoid_counterexample :
    (mkBaseRow sampleDraws 1).sales
      ≠ (sampleDraws.salesBase 1 : ℝ) + specSalesPerturbation 100 10 1 := by
  have hπ : (3 : ℝ) < Real.pi := Real.pi_gt_three
  have harg1 : linspace 0 10 100 1 = 10 / 99 := by
    unfold linspace; norm_num
  have harg2 : 2 * Real.pi * ((1 : Nat) : ℝ) / ((100 : Nat) : ℝ) * ((10 : Nat) : ℝ)
      = Real.pi / 5 := by
    push_cast; ring
  have hlt : Real.sin (10 / 99) < Real.sin (Real.pi / 5) := by
    have hmem1 : (10 / 99 : ℝ) ∈ Set.Icc (-(Real.pi / 2)) (Real.pi / 2) := by
      constructor <;> nlinarith
    have hmem2 : (Real.pi / 5 : ℝ) ∈ Set.Icc (-(Real.pi / 2)) (Real.pi / 2) := by
      constructor <;> nlinarith
    exact Real.strictMonoOn_sin hmem1 hmem2 (by nlinarith)
  intro h
  have h' : Real.sin (linspace 0 10 100 1) * 50
      = Real.sin (2 * Real.pi * ((1 : Nat) : ℝ) / ((100 : Nat) : ℝ) * ((10 : Nat) : ℝ)) * 50 := by
    have := h
    unfold mkBaseRow specSalesPerturbation at this
    simpa using this
  rw [harg1, harg2] at h'
  have : Real.sin (10 / 99) = Real.sin (Real.pi / 5) :=
    mul_right_cancel₀ (by norm_num) h'
  exact absurd this hlt.ne

/-- Claim C3 as amended: for every row index `i` the sales value is the base
integer draw plus `sin(linspace 0 10 100 i) * 50`, and the sinusoid's
argument is `10 · i / 99` radians — the argument ramps linearly from 0 to 10
radians over the index range (`np.linspace(0, 10, 100)`), rather than the
claimed `2π · i / N · k` form. -/
theorem C3_sinusoid_amended :
    ∀ (d : Draws) (i : Nat),
      (mkBaseRow d i).sales = (d.salesBase i : ℝ) + Real.sin (linspace 0 10 100 i) * 50 ∧
      linspace 0 10 100 i = 10 * i / 99 := by
  intro d i
  refine ⟨rfl, ?_⟩
  unfold linspace
  norm_num

/-- Claim C8: every row's `year_month` is its date rendered by
`strftime('%Y-%m')`; the rendering depends only on the year and month fields
(the truncation to the calendar month); row index 14 carries the date
2023-01-15; and that date renders as `"2023-01"`. -/
theorem C8_year_month (d : Draws) :
    ((generate_data d).map (fun r => r.year_month)
      = (List.range 100).map (fun i => fmtYM (dateAt i))) ∧
    (∀ y m dy dy', fmtYM ⟨y, m, dy⟩ = fmtYM ⟨y, m, dy'⟩) ∧
    dateAt 14 = ⟨2023, 1, 15⟩ ∧
    fmtYM ⟨2023, 1, 15⟩ = "2023-01" := by
  refine ⟨?_, fun y m dy dy' => rfl, by decide, by decide⟩
  simp only [generate_data, List.map_map]
  rfl

/-- A one-row table built from the concrete draws, for instantiating the
aggregation theorems. -/
noncomputable def sampleRows : List Row := [dataRow sampleDraws 0]

/-- Claim C4: for any table, the sum over the per-region sums produced by the
`groupby('region')['sales'].sum()` aggregate equals the sum of `sales` over
the whole table — in particular for every table the pipeline produces. -/
theorem C4_region_sum_conservation (rows : List Row) :
    ((region_sales rows).map (fun p => p.2)).sum = (rows.map (fun r => r.sales)).sum := by
  unfold region_sales
  rw [List.map_map]
  have hcomp : ((fun p : Region × ℝ => p.2) ∘ fun rg => (rg, sumSalesForRegion rows rg))
      = fun rg => sumSalesForRegion rows rg := rfl
  rw [hcomp]
  have hnd : (rows.map (fun r => r.region)).dedup.Nodup := List.nodup_dedup _
  rw [← List.sum_toFinset _ hnd, dedup_toFinset, ← sum_regions_eq_salesTotal rows]
  apply Finset.sum_subset (Finset.subset_univ _)
  intro x _ hx
  exact sumSalesForRegion_eq_zero (by simpa using hx)

/-- Claim C5: for every category present in a table — category `A` included —
the `groupby('category')[...].mean()` aggregate contains an output row for
that category whose reported mean `sales` is the arithmetic mean of `sales`
over exactly the rows with that category: the group is non-empty, and the
reported value times the group size recovers the group's `sales` sum. -/
theorem C5_category_mean (rows : List Row) (c : Cat)
    (hc : c ∈ rows.map (fun r => r.category)) :
    (c, meanSalesForCat rows c, meanCustomersForCat rows c, meanPurchaseForCat rows c)
      ∈ category_avg rows ∧
    0 < (rowsWithCat rows c).length ∧
    meanSalesForCat rows c * ((rowsWithCat rows c).length : ℝ)
      = ((rowsWithCat rows c).map (fun r => r.sales)).sum := by
  have hlen : 0 < (rowsWithCat rows c).length := by
    rcases List.mem_map.1 hc with ⟨r, hr, hrc⟩
    have hmem : r ∈ rowsWithCat rows c := by
      unfold rowsWithCat
      exact List.mem_filter.2 ⟨hr, by simp [hrc]⟩
    exact List.length_pos_of_mem hmem
  refine ⟨?_, hlen, ?_⟩
  · unfold category_avg
    exact List.mem_map.2 ⟨c, List.mem_dedup.2 hc, rfl⟩
  · unfold meanSalesForCat
    exact div_mul_cancel₀ _ (by exact_mod_cast hlen.ne')

/-- Witness for C5 on a concrete one-row table with category `A`. -/
theorem C5_category_mean_witness :
    Cat.A ∈ sampleRows.map (fun r => r.category) ∧
    0 < (rowsWithCat sampleRows Cat.A).length := by
  have hc : Cat.A ∈ sampleRows.map (fun r => r.category) := by
    simp [sampleRows, dataRow, addDerived, mkBaseRow, sampleDraws]
  exact ⟨hc, (C5_category_mean sampleRows Cat.A hc).2.1⟩

/-- Claim C6: the `(year_month, category)` heat-map aggregate has at most
(number of distinct `year_month` values) × (number of distinct categories)
output rows, with equality exactly when every combination of a present
`year_month` and a present category occurs in some row. -/
theorem C6_heatmap_card (rows : List Row) :
    (heatmap_data rows).length
      ≤ (rows.map (fun r => r.year_month)).dedup.length
        * (rows.map (fun r => r.category)).dedup.length ∧
    ((heatmap_data rows).length
        = (rows.map (fun r => r.year_month)).dedup.length
          * (rows.map (fun r => r.category)).dedup.length
      ↔ ∀ ym ∈ (rows.map (fun r => r.year_month)).dedup,
          ∀ c ∈ (rows.map (fun r => r.category)).dedup,
            (ym, c) ∈ rows.map (fun r => (r.year_month, r.category))) := by
  have hlen : (heatmap_data rows).length
      = (rows.map (fun r => (r.year_month, r.category))).toFinset.card := by
    unfold heatmap_data
    rw [List.length_map, dedup_length_eq_card]
  have hsub : (rows.map (fun r => (r.year_month, r.category))).toFinset
      ⊆ (rows.map (fun r => r.year_month)).toFinset ×ˢ (rows.map (fun r => r.category)).toFinset := by
    intro p hp
    rw [List.mem_toFinset] at hp
    rcases List.mem_map.1 hp with ⟨r, hr, rfl⟩
    rw [Finset.mem_product]
    constructor <;> rw [List.mem_toFinset] <;> exact List.mem_map.2 ⟨r, hr, rfl⟩
  have hprod : ((rows.map (fun r => r.year_month)).toFinset
        ×ˢ (rows.map (fun r => r.category)).toFinset).card
      = (rows.map (fun r => r.year_month)).dedup.length
        * (rows.map (fun r => r.category)).dedup.length := by
    rw [Finset.card_product, dedup_length_eq_card, dedup_length_eq_card]
  constructor
  · rw [hlen, ← hprod]
    exact Finset.card_le_card hsub
  · constructor
    · intro heq ym hym c hcm
      have hcard : ((rows.map (fun r => r.year_month)).toFinset
            ×ˢ (rows.map (fun r => r.category)).toFinset).card
          ≤ (rows.map (fun r => (r.year_month, r.category))).toFinset.card := by
        rw [← hlen, heq, hprod]
      have hfin : (rows.map (fun r => (r.year_month, r.category))).toFinset
          = (rows.map (fun r => r.year_month)).toFinset
            ×ˢ (rows.map (fun r => r.category)).toFinset :=
        Finset.eq_of_subset_of_card_le hsub hcard
      have hmemp : (ym, c) ∈ (rows.map (fun r => r.year_month)).toFinset
          ×ˢ (rows.map (fun r => r.category)).toFinset := by
        rw [Finset.mem_product]
        constructor <;> rw [List.mem_toFinset]
        · exact List.mem_dedup.1 hym
        · exact List.mem_dedup.1 hcm
      rw [← hfin, List.mem_toFinset] at hmemp
      exact hmemp
    · intro hall
      have hsup : (rows.map (fun r => r.year_month)).toFinset
            ×ˢ (rows.map (fun r => r.category)).toFinset
          ⊆ (rows.map (fun r => (r.year_month, r.category))).toFinset := by
        intro p hp
        rw [Finset.mem_product, List.mem_toFinset, List.mem_toFinset] at hp
        rw [List.mem_toFinset]
        have := hall p.1 (List.mem_dedup.2 hp.1) p.2 (List.mem_dedup.2 hp.2)
        simpa using this
      rw [hlen, Finset.Subset.antisymm hsub hsup, hprod]

/-- Witness for C6: the bound instantiated on the concrete one-row table. -/
theorem C6_heatmap_card_witness :
    (heatmap_data sampleRows).length
      ≤ (sampleRows.map (fun r => r.year_month)).dedup.length
        * (sampleRows.map (fun r => r.category)).dedup.length :=
  (C6_heatmap_card sampleRows).1

/-- Claim C7: in the session-cache model of `st.cache_data`, the first call
computes `generate_data`; a second call in the same session returns the very
table stored by the first call and leaves the session unchanged; a call on
any session holding a cached table returns that table for any draws (no
recomputation of the generator); and two fresh-session runs over the same
seeded draw stream produce identical tables in every column. -/
theorem C7_memoized_deterministic (d d' : Draws) (s s' : Session) (t : List Row) :
    (getData d emptySession).1 = generate_data d ∧
    getData d ((getData d emptySession).2)
      = ((getData d emptySession).1, (getData d emptySession).2) ∧
    (s.cache = some t → getData d' s = (t, s)) ∧
    (s.cache = none → s'.cache = none → (getData d s).1 = (getData d s').1) := by
  refine ⟨rfl, rfl, ?_, ?_⟩
  · intro h
    obtain ⟨sc⟩ := s
    simp only at h
    subst h
    rfl
  · intro h h'
    obtain ⟨sc⟩ := s
    obtain ⟨sc'⟩ := s'
    simp only at h h'
    subst h
    subst h'
    rfl

/-- Witness for C7: the cache-hit and fresh-session clauses at concrete
draws and a concrete cached session. -/
theorem C7_memoized_deterministic_witness :
    getData sampleDraws ⟨some (generate_data sampleDraws)⟩
      = (generate_data sampleDraws, ⟨some (generate_data sampleDraws)⟩) ∧
    (getData sampleDraws emptySession).1 = (getData sampleDraws emptySession).1 :=
  ⟨(C7_memoized_deterministic sampleDraws sampleDraws
      ⟨some (generate_data sampleDraws)⟩ emptySession (generate_data sampleDraws)).2.2.1 rfl,
   (C7_memoized_deterministic sampleDraws sampleDraws emptySession emptySession
      (generate_data sampleDraws)).2.2.2 rfl rfl⟩

/-- Claim C9: in the spec-modelled parameterized generator, a row count
`N ≤ 0` fails with `InvalidArgument` and returns no partial table, any
`N > 0` succeeds, and at the source's fixed `N = 100` the result is exactly
the table of `generate_data`. -/
theorem C9_invalid_argument (d : Draws) (n : Int) :
    (n ≤ 0 → generate_dataN d n = Except.error PipelineError.InvalidArgument) ∧
    (0 < n → generate_dataN d n
      = Except.ok (((List.range n.toNat).map (mkBaseRow d)).map addDerived)) ∧
    generate_dataN d 100 = Except.ok (generate_data d) := by
  refine ⟨fun h => ?_, fun h => ?_, ?_⟩
  · unfold generate_dataN
    rw [if_pos h]
  · unfold generate_dataN
    rw [if_neg (not_le.mpr h)]
  · unfold generate_dataN generate_data
    rw [if_neg (by norm_num : ¬(100 : Int) ≤ 0)]
    rfl

/-- Witness for C9 at `N = -1` and `N = 100`. -/
theorem C9_invalid_argument_witness :
    generate_dataN sampleDraws (-1) = Except.error PipelineError.InvalidArgument ∧
    generate_dataN sampleDraws 100 = Except.ok (generate_data sampleDraws) :=
  ⟨(C9_invalid_argument sampleDraws (-1)).1 (by norm_num),
   (C9_invalid_argument sampleDraws 100).2.2⟩

/-- Claim C10: for well-formed draws, every row has strictly positive
revenue: the sinusoidal perturbation has magnitude at most 50, the base draw
is at least 100, so `sales ≥ 50 > 0`; `avg_purchase ≥ 10 > 0`; hence
`revenue = sales * avg_purchase > 0`. -/
theorem C10_revenue_pos (d : Draws) (hwf : d.WellFormed) (i : Nat) :
    |Real.sin (linspace 0 10 100 i) * 50| ≤ 50 ∧
    (100 : ℝ) ≤ (d.salesBase i : ℝ) ∧
    50 ≤ (dataRow d i).sales ∧
    10 ≤ (dataRow d i).avg_purchase ∧
    0 < (dataRow d i).revenue := by
  obtain ⟨hs, _, ha⟩ := hwf
  have hbase : (100 : ℝ) ≤ (d.salesBase i : ℝ) := by exact_mod_cast (hs i).1
  have hsin : -1 ≤ Real.sin (linspace 0 10 100 i) := Real.neg_one_le_sin _
  have hsin' : |Real.sin (linspace 0 10 100 i) * 50| ≤ 50 := by
    rw [abs_mul]
    have h1 : |Real.sin (linspace 0 10 100 i)| ≤ 1 :=
      abs_le.mpr ⟨Real.neg_one_le_sin _, Real.sin_le_one _⟩
    have h2 : |(50 : ℝ)| = 50 := by norm_num
    rw [h2]
    nlinarith [abs_nonneg (Real.sin (linspace 0 10 100 i))]
  have hsales : (50 : ℝ) ≤ (dataRow d i).sales := by
    show (50 : ℝ) ≤ (d.salesBase i : ℝ) + Real.sin (linspace 0 10 100 i) * 50
    nlinarith
  have havg : (10 : ℝ) ≤ (dataRow d i).avg_purchase := (ha i).1
  refine ⟨hsin', hbase, hsales, havg, ?_⟩
  show 0 < ((d.salesBase i : ℝ) + Real.sin (linspace 0 10 100 i) * 50) * d.avgPurchaseDraw i
  have h10 : (0 : ℝ) < d.avgPurchaseDraw i := lt_of_lt_of_le (by norm_num) (ha i).1
  nlinarith

/-- Witness for C10 at the concrete well-formed draws, row 0. -/
theorem C10_revenue_pos_witness :
    sampleDraws.WellFormed ∧ 0 < (dataRow sampleDraws 0).revenue :=
  ⟨sampleDraws_wellFormed,
   (C10_revenue_pos sampleDraws sampleDraws_wellFormed 0).2.2.2.2⟩

end StreamlitFirst
